import Mathlib

set_option maxRecDepth 20000

/-!
Shallow embedding of the Omni-Channel-Bot webhook relay
(`src/connexease-ai-agent/index.js` and `src/unnamed/part_001`, both
Express applications sharing most of their middleware, plus the
HMAC-based signature verifier of `src/unnamed/part_001`).

JavaScript strings become `String`, absent (`undefined`/`null`) values
become `Option`, millisecond timestamps become `Nat`, and the
`crypto.createHmac('sha256', secret).update(uuid, 'utf-8').digest('base64')`
call is embedded as an executable SHA-256 / HMAC / base64 stack over
byte lists (`List Nat`, each element < 256).
-/

namespace OmniBot

/-- JavaScript truthiness for an optional string: `undefined` and `""`
are falsy, every other string is truthy.  Returns the string when truthy. -/
def jsTruthy : Option String → Option String
  | none => none
  | some s => if s = "" then none else some s

/-- JavaScript `a || b` on optional strings (`b` already truthiness-filtered). -/
def jsOrStr (a b : Option String) : Option String :=
  match jsTruthy a with
  | some s => some s
  | none => jsTruthy b

/-- JavaScript `s.split(',')[0]`: the characters before the first comma
(the whole string when it has none). -/
def firstCommaEntry (s : String) : String :=
  String.mk (s.data.takeWhile fun c => c ≠ ',')

/-- JavaScript `s.trim()`: strip leading and trailing whitespace. -/
def jsTrim (s : String) : String :=
  String.mk (((s.data.dropWhile Char.isWhitespace).reverse.dropWhile
    Char.isWhitespace).reverse)

/-! ## SHA-256 over byte lists (FIPS 180-4), as invoked by `crypto.createHmac` -/

/-- 2^32, the word modulus of SHA-256. -/
def M32 : Nat := 4294967296

/-- Addition modulo 2^32. -/
def add32 (a b : Nat) : Nat := (a + b) % M32

/-- Right rotation of a 32-bit word by `n` places. -/
def rotr32 (n x : Nat) : Nat := ((x >>> n) ||| (x <<< (32 - n))) % M32

/-- 32-bit bitwise complement. -/
def not32 (x : Nat) : Nat := x ^^^ 4294967295

def ch32 (x y z : Nat) : Nat := (x &&& y) ^^^ (not32 x &&& z)

def maj32 (x y z : Nat) : Nat := (x &&& y) ^^^ (x &&& z) ^^^ (y &&& z)

def bigSigma0 (x : Nat) : Nat := rotr32 2 x ^^^ rotr32 13 x ^^^ rotr32 22 x

def bigSigma1 (x : Nat) : Nat := rotr32 6 x ^^^ rotr32 11 x ^^^ rotr32 25 x

def smallSigma0 (x : Nat) : Nat := rotr32 7 x ^^^ rotr32 18 x ^^^ (x >>> 3)

def smallSigma1 (x : Nat) : Nat := rotr32 17 x ^^^ rotr32 19 x ^^^ (x >>> 10)

/-- The 64 SHA-256 round constants (FIPS 180-4 §4.2.2, in decimal). -/
def sha256K : List Nat :=
  [1116352408, 1899447441, 3049323471, 3921009573, 961987163, 1508970993,
   2453635748, 2870763221, 3624381080, 310598401, 607225278, 1426881987,
   1925078388, 2162078206, 2614888103, 3248222580, 3835390401, 4022224774,
   264347078, 604807628, 770255983, 1249150122, 1555081692, 1996064986,
   2554220882, 2821834349, 2952996808, 3210313671, 3336571891, 3584528711,
   113926993, 338241895, 666307205, 773529912, 1294757372, 1396182291,
   1695183700, 1986661051, 2177026350, 2456956037, 2730485921, 2820302411,
   3259730800, 3345764771, 3516065817, 3600352804, 4094571909, 275423344,
   430227734, 506948616, 659060556, 883997877, 958139571, 1322822218,
   1537002063, 1747873779, 1955562222, 2024104815, 2227730452, 2361852424,
   2428436474, 2756734187, 3204031479, 3329325298]

/-- The SHA-256 initial hash value (FIPS 180-4 §5.3.3, in decimal). -/
def sha256H0 : List Nat :=
  [1779033703, 3144134277, 1013904242, 2773480762,
   1359893119, 2600822924, 528734635, 1541459225]

/-- Big-endian 8-byte encoding of a length in bits. -/
def be64 (n : Nat) : List Nat :=
  [(n >>> 56) &&& 255, (n >>> 48) &&& 255, (n >>> 40) &&& 255, (n >>> 32) &&& 255,
   (n >>> 24) &&& 255, (n >>> 16) &&& 255, (n >>> 8) &&& 255, n &&& 255]

/-- SHA-256 padding: append `0x80`, zero bytes to 56 mod 64, then the
64-bit big-endian bit length. -/
def padMessage (msg : List Nat) : List Nat :=
  let k := (119 - msg.length % 64) % 64
  msg ++ [0x80] ++ List.replicate k 0 ++ be64 (msg.length * 8)

/-- The sixteen big-endian 32-bit words of a 64-byte block. -/
def wordsOfBlock (blk : List Nat) : List Nat :=
  (List.range 16).map fun i =>
    (blk.getD (4 * i) 0) <<< 24 ||| (blk.getD (4 * i + 1) 0) <<< 16 |||
    (blk.getD (4 * i + 2) 0) <<< 8 ||| blk.getD (4 * i + 3) 0

/-- Extend the sixteen block words to the 64-entry message schedule. -/
def msgSchedule (w16 : List Nat) : List Nat :=
  (List.range 48).foldl
    (fun w _ =>
      let i := w.length
      w ++ [add32 (add32 (smallSigma1 (w.getD (i - 2) 0)) (w.getD (i - 7) 0))
                  (add32 (smallSigma0 (w.getD (i - 15) 0)) (w.getD (i - 16) 0))])
    w16

/-- Working state of the SHA-256 compression function. -/
structure Sha256State where
  a : Nat
  b : Nat
  c : Nat
  d : Nat
  e : Nat
  f : Nat
  g : Nat
  h : Nat
deriving Repr, DecidableEq

/-- One SHA-256 round. -/
def sha256Round (w k : Nat) (s : Sha256State) : Sha256State :=
  let t1 := add32 s.h (add32 (bigSigma1 s.e) (add32 (ch32 s.e s.f s.g) (add32 k w)))
  let t2 := add32 (bigSigma0 s.a) (maj32 s.a s.b s.c)
  ⟨add32 t1 t2, s.a, s.b, s.c, add32 s.d t1, s.e, s.f, s.g⟩

/-- Compress one 64-byte block into the running hash (list of 8 words). -/
def compressBlock (hv : List Nat) (blk : List Nat) : List Nat :=
  let w := msgSchedule (wordsOfBlock blk)
  let init : Sha256State :=
    ⟨hv.getD 0 0, hv.getD 1 0, hv.getD 2 0, hv.getD 3 0,
     hv.getD 4 0, hv.getD 5 0, hv.getD 6 0, hv.getD 7 0⟩
  let s := (List.range 64).foldl
    (fun s i => sha256Round (w.getD i 0) (sha256K.getD i 0) s) init
  [add32 (hv.getD 0 0) s.a, add32 (hv.getD 1 0) s.b, add32 (hv.getD 2 0) s.c,
   add32 (hv.getD 3 0) s.d, add32 (hv.getD 4 0) s.e, add32 (hv.getD 5 0) s.f,
   add32 (hv.getD 6 0) s.g, add32 (hv.getD 7 0) s.h]

/-- Big-endian bytes of a 32-bit word. -/
def word32Bytes (w : Nat) : List Nat :=
  [(w >>> 24) &&& 255, (w >>> 16) &&& 255, (w >>> 8) &&& 255, w &&& 255]

/-- SHA-256 of a byte list, as a 32-byte list. -/
def sha256 (msg : List Nat) : List Nat :=
  let padded := padMessage msg
  let nBlocks := padded.length / 64
  let blocks := (List.range nBlocks).map fun i => (padded.drop (64 * i)).take 64
  (blocks.foldl compressBlock sha256H0).flatMap word32Bytes

/-- HMAC-SHA256 (RFC 2104) of a message under a key, both byte lists. -/
def hmacSha256 (key msg : List Nat) : List Nat :=
  let k0 := if 64 < key.length then sha256 key else key
  let kPad := k0 ++ List.replicate (64 - k0.length) 0
  let ipad := kPad.map (· ^^^ 0x36)
  let opad := kPad.map (· ^^^ 0x5c)
  sha256 (opad ++ sha256 (ipad ++ msg))

/-! ## UTF-8 and base64, as used by `update(·, 'utf-8')` and `digest('base64')` -/

/-- UTF-8 encoding of one character as bytes. -/
def utf8EncodeCharBytes (c : Char) : List Nat :=
  let n := c.toNat
  if n < 0x80 then [n]
  else if n < 0x800 then
    [0xC0 ||| (n >>> 6), 0x80 ||| (n &&& 0x3F)]
  else if n < 0x10000 then
    [0xE0 ||| (n >>> 12), 0x80 ||| ((n >>> 6) &&& 0x3F), 0x80 ||| (n &&& 0x3F)]
  else
    [0xF0 ||| (n >>> 18), 0x80 ||| ((n >>> 12) &&& 0x3F),
     0x80 ||| ((n >>> 6) &&& 0x3F), 0x80 ||| (n &&& 0x3F)]

/-- UTF-8 bytes of a string. -/
def utf8Bytes (s : String) : List Nat := s.data.flatMap utf8EncodeCharBytes

/-- The standard base64 alphabet. -/
def b64Alphabet : List Char :=
  "ABCDEFGHIJKLMNOPQRSTUVWXYZabcdefghijklmnopqrstuvwxyz0123456789+/".data

def b64Char (n : Nat) : Char := b64Alphabet.getD n 'A'

/-- Base64-encode a byte list (with `=` padding), three bytes at a time. -/
def base64Chars : List Nat → List Char
  | a :: b :: c :: rest =>
    let n := a <<< 16 ||| b <<< 8 ||| c
    b64Char (n >>> 18) :: b64Char ((n >>> 12) &&& 63) ::
      b64Char ((n >>> 6) &&& 63) :: b64Char (n &&& 63) :: base64Chars rest
  | [a, b] =>
    let n := a <<< 16 ||| b <<< 8
    [b64Char (n >>> 18), b64Char ((n >>> 12) &&& 63), b64Char ((n >>> 6) &&& 63), '=']
  | [a] =>
    let n := a <<< 16
    [b64Char (n >>> 18), b64Char ((n >>> 12) &&& 63), '=', '=']
  | [] => []

def base64Encode (bytes : List Nat) : String := String.mk (base64Chars bytes)

/-- The signature string Connexease is expected to send:
`crypto.createHmac('sha256', secret).update(msg, 'utf-8').digest('base64')`. -/
def hmacSha256Base64 (secret msg : String) : String :=
  base64Encode (hmacSha256 (utf8Bytes secret) (utf8Bytes msg))

/-! ## Data model of the parsed webhook request

The JSON body is `\x7bhook, payload, channel?\x7d`; `payload` carries the
fields the handlers read (`customer`, `agent`, `content`,
`conversation_uuid`, `uuid`, `messages`) plus `conversationId` and a
nested `channel`, which the code never reads but which the spec's
examples mention.  Absent JSON fields are `none`. -/

structure Customer where
  name : Option String
  phone_number : Option String
deriving Repr, DecidableEq

structure Channel where
  uuid : Option String
deriving Repr, DecidableEq

/-- The `payload.messages` object of a `conversation.created` event. -/
structure MessagesObj where
  content : Option String
  customer : Option Customer
deriving Repr, DecidableEq

structure Payload where
  customer : Option Customer
  agent : Option String
  content : Option String
  conversation_uuid : Option String
  uuid : Option String
  messages : Option MessagesObj
  conversationId : Option String
  channel : Option Channel
deriving Repr, DecidableEq

/-- An all-absent payload, for building concrete test events tersely. -/
def Payload.empty : Payload := ⟨none, none, none, none, none, none, none, none⟩

structure Body where
  hook : Option String
  payload : Payload
  channel : Option Channel
deriving Repr, DecidableEq

/-- The parts of the Express `req` object the middleware reads. -/
structure Request where
  xForwardedFor : Option String
  remoteAddress : String
  signatureHeader : Option String
  body : Body
deriving Repr, DecidableEq

/-! ## `ipAllowlist` and the revision-1 signature check (`index.js`) -/

/-- The single allowed source address hardcoded in `ipAllowlist`. -/
def allowedIp : String := "34.89.215.92"

/-- `req.headers['x-forwarded-for'] || req.socket.remoteAddress`
(JavaScript `||`: an empty header string also falls back). -/
def clientIpString (req : Request) : String :=
  match jsTruthy req.xForwardedFor with
  | some s => s
  | none => req.remoteAddress

/-- The first comma-separated entry of the client IP chain, before trimming. -/
def firstForwardedEntry (req : Request) : String :=
  firstCommaEntry (clientIpString req)

/-- `clientIpString.split(',')[0].trim()`, the value `ipAllowlist` compares. -/
def firstIp (req : Request) : String := jsTrim (firstForwardedEntry req)

/-- The `ipAllowlist` middleware passes iff the trimmed first entry equals
the allowed address. -/
def ipAllowlistPasses (req : Request) : Bool := firstIp req = allowedIp

/-- Outcome of the ordered authentication chain of
`app.post('/webhook', ipAllowlist, verifyConnexeaseSignature, handler)`
in `index.js` (revision 1: the signature header must equal the raw secret). -/
inductive AuthResult where
  | rejectedIp
  | rejectedSignature
  | authorized
deriving Repr, DecidableEq

/-- `ipAllowlist` then `verifyConnexeaseSignature` of `index.js`:
a 403 from the IP check short-circuits; otherwise the
`X-Connexease-Webhook-Sign` header must equal the raw configured secret. -/
def authenticate (secret : String) (req : Request) : AuthResult :=
  if ipAllowlistPasses req then
    if req.signatureHeader = some secret then .authorized else .rejectedSignature
  else .rejectedIp

/-! ## HMAC signature verifier (`src/unnamed/part_001`) -/

/-- HTTP outcome of `verifyConnexeaseSignature` in `src/unnamed/part_001`. -/
inductive VerifyResult where
  | forbiddenMissing
  | badRequestPayload
  | forbiddenInvalid
  | verified
deriving Repr, DecidableEq

/-- `verifyConnexeaseSignature` of `src/unnamed/part_001`: 403 when the
signature header is absent (JS-falsy), 400 when `req.body.channel?.uuid`
is absent (JS-falsy), otherwise compare the header against
HMAC-SHA256-base64 of the uuid under the configured secret. -/
def verifyConnexeaseSignature (secret : String) (req : Request) : VerifyResult :=
  match jsTruthy req.signatureHeader with
  | none => .forbiddenMissing
  | some signature =>
    match jsTruthy (req.body.channel.bind Channel.uuid) with
    | none => .badRequestPayload
    | some channelUuid =>
      if signature = hmacSha256Base64 secret channelUuid then .verified
      else .forbiddenInvalid

/-- The field path the spec names, `payload.channel.uuid` — read from the
`payload` object, unlike the code, which reads `req.body.channel?.uuid`. -/
def payloadChannelUuid (b : Body) : Option String := b.payload.channel.bind Channel.uuid

/-! ## Token cache (`getConnexeaseToken`, identical in both revisions)

The module globals `connexeaseToken` / `tokenExpiresAt` become an explicit
state; `new Date()` becomes a `now : Nat` parameter in milliseconds; the
`axios.post` to the credential endpoint becomes a `FetchResult` parameter. -/

structure TokenCacheState where
  connexeaseToken : Option String
  tokenExpiresAt : Option Nat
deriving Repr, DecidableEq

/-- Outcome of the `axios.post` to the `/jwt/` credential endpoint. -/
inductive FetchResult where
  | success (token : String)
  | failure
deriving Repr, DecidableEq

/-- What one call to `getConnexeaseToken` produced: its return value,
the cache state afterwards, and whether it issued a network request. -/
structure TokenCallResult where
  result : Option String
  state : TokenCacheState
  madeRequest : Bool
deriving Repr, DecidableEq

/-- `23.5 * 60 * 60 * 1000` milliseconds, the fixed token TTL. -/
def tokenTtlMs : Nat := 84600000

/-- The guard `connexeaseToken && tokenExpiresAt && new Date() < tokenExpiresAt`
(a cached empty-string token is JS-falsy and fails the guard). -/
def tokenCacheHit (st : TokenCacheState) (now : Nat) : Bool :=
  match st.connexeaseToken, st.tokenExpiresAt with
  | some t, some exp => t ≠ "" && now < exp
  | _, _ => false

/-- `getConnexeaseToken`: return the cached token when the guard holds;
otherwise fetch — on success store the token and set
`tokenExpiresAt = now + 23.5h`, on failure change nothing and return null. -/
def getConnexeaseToken (st : TokenCacheState) (now : Nat) (fetch : FetchResult) :
    TokenCallResult :=
  if tokenCacheHit st now then ⟨st.connexeaseToken, st, false⟩
  else
    match fetch with
    | .success tok => ⟨some tok, ⟨some tok, some (now + tokenTtlMs)⟩, true⟩
    | .failure => ⟨none, st, true⟩

/-! ## `getAIResponse` (all revisions share the same control flow)

The lazy `knowledgeBase` global becomes an explicit `kb` argument, the
`fs.readFile` call a `kbRead` parameter, and the generative-provider call
a `provider` parameter.  The `readFile` sits OUTSIDE the try/catch, so
its failure escapes the function. -/

inductive AIOutcome where
  | reply (text : String) (kb : String)
  | thrown
deriving Repr, DecidableEq

/-- Fallback text of `getAIResponse` in `index.js` revision 1. -/
def fallbackRev1 : String := "Sorry, I couldn't generate a suggestion."

/-- Fallback text of `getAIResponse` in `src/unnamed/part_001`. -/
def fallbackPart1 : String :=
  "Üzgünüm, talebinizi işlerken bir sorun oluştu. En kısa sürede bir temsilcimiz size yardımcı olacaktır."

/-- `getAIResponse`: lazily (re)load the knowledge base when the cached one
is empty — an uncaught read failure propagates — then call the provider
inside try/catch, degrading to the fixed fallback string on error. -/
def getAIResponse (fallback : String) (kb : String)
    (kbRead : Except Unit String) (provider : Except Unit String) : AIOutcome :=
  match (if kb = "" then kbRead else .ok kb : Except Unit String) with
  | .error _ => .thrown
  | .ok kb2 =>
    match provider with
    | .ok text => .reply text kb2
    | .error _ => .reply fallback kb2

/-! ## Webhook normalisation and the conversation store (`index.js`) -/

/-- A stored chat message (the `timestamp` field, a locale-formatted wall
clock string, is irrelevant to every claim and omitted as presentation). -/
structure StoredMessage where
  sender : String
  content : Option String
deriving Repr, DecidableEq

structure Conversation where
  id : Option String
  customer : Option Customer
  messages : List StoredMessage
deriving Repr, DecidableEq

/-- The `conversations` JS `Map`, keyed by the (possibly undefined)
conversation id, as an insertion-ordered association list. -/
abbrev ConvMap := List (Option String × Conversation)

/-- `conversations.get(k)`: first (only) entry stored under key `k`. -/
def convFind : ConvMap → Option String → Option Conversation
  | [], _ => none
  | p :: m, k => if p.1 = k then some p.2 else convFind m k

/-- What the `message.created` / `conversation.created` branches of the
`index.js` webhook handler extract: the conversation id variable and the
message object (or `none` on ignored hooks and agent-authored messages). -/
def normalizeWebhook (b : Body) : Option (Option String × StoredMessage) :=
  if b.hook = some "message.created" then
    match b.payload.customer with
    | none => none
    | some _ => some (b.payload.conversation_uuid, ⟨"customer", b.payload.content⟩)
  else if b.hook = some "conversation.created" then
    some (b.payload.uuid, ⟨"customer", b.payload.messages.bind MessagesObj.content⟩)
  else none

/-- `payload.customer || payload.messages?.customer`, the customer stored
when a conversation is first created. -/
def customerOf (p : Payload) : Option Customer :=
  match p.customer with
  | some c => some c
  | none => p.messages.bind MessagesObj.customer

/-- `conversations.set` / `get` / `messages.push` of the store step:
create the conversation on first sight of the key, then append. -/
def storeMessage (m : ConvMap) (k : Option String) (cust : Option Customer)
    (msg : StoredMessage) : ConvMap :=
  let m2 : ConvMap :=
    if (convFind m k).isSome then m else m ++ [(k, ⟨k, cust, []⟩)]
  m2.map fun p =>
    if p.1 = k then (p.1, { p.2 with messages := p.2.messages ++ [msg] }) else p

/-- A frame pushed over the WebSocket by `broadcast`. -/
structure BroadcastFrame where
  type : String
  conversationId : Option String
  message : StoredMessage
  customer : Option Customer
deriving Repr, DecidableEq

/-- The store-and-broadcast tail of the `index.js` webhook handler: after
`if (!message || !message.content) return`, store the message and
broadcast a `newMessage` frame.  Returns the new map and the frames sent. -/
def webhookStoreStep (m : ConvMap) (b : Body) : ConvMap × List BroadcastFrame :=
  match normalizeWebhook b with
  | none => (m, [])
  | some (cid, msg) =>
    match jsTruthy msg.content with
    | none => (m, [])
    | some _ =>
      let m2 := storeMessage m cid (customerOf b.payload) msg
      (m2, [⟨"newMessage", cid, msg, (convFind m2 cid).bind Conversation.customer⟩])

/-- HTTP status returned to the webhook caller. -/
inductive HttpStatus where
  | ok200
  | forbidden403
  | badRequest400
deriving Repr, DecidableEq

/-- One whole `POST /webhook` request against `index.js` revision 1:
`ipAllowlist`, then raw-secret signature equality, then the
store-and-broadcast handler (which always answers 200 first). -/
def webhookRequestStep (secret : String) (m : ConvMap) (req : Request) :
    HttpStatus × ConvMap × List BroadcastFrame :=
  match authenticate secret req with
  | .rejectedIp => (.forbidden403, m, [])
  | .rejectedSignature => (.forbidden403, m, [])
  | .authorized =>
    let (m2, frames) := webhookStoreStep m req.body
    (.ok200, m2, frames)

/-- The auto-reply gate of `src/unnamed/part_001`: the AI/reply path runs
iff the hook matches, the authorship checks pass, and the extracted
content is truthy AND nonblank after `trim()`. -/
def repliesToEvent (b : Body) : Bool :=
  if b.hook = some "message.created" then
    match b.payload.customer, b.payload.agent with
    | some _, none =>
      match jsTruthy b.payload.content with
      | some c => jsTrim c ≠ ""
      | none => false
    | _, _ => false
  else if b.hook = some "conversation.created" then
    match jsTruthy (b.payload.messages.bind MessagesObj.content) with
    | some c => jsTrim c ≠ ""
    | none => false
  else false

/-! ## Dashboard message log (`logMessageForDashboard`, `src/unnamed/part_001`) -/

structure DashboardEntry where
  fromDisplay : String
  content : String
  signature_ok : String
deriving Repr, DecidableEq

/-- `customer?.name || customer?.phone_number || 'Unknown'`. -/
def displayNameOf (c : Option Customer) : String :=
  match jsOrStr (c.bind Customer.name) (c.bind Customer.phone_number) with
  | some s => s
  | none => "Unknown"

/-- `logMessageForDashboard`: on the two logged hook types with truthy
content, unshift a new entry; pop the last entry when the length
exceeds 50.  Anything else leaves the log unchanged. -/
def logMessageForDashboard (log : List DashboardEntry) (b : Body) :
    List DashboardEntry :=
  if b.hook = some "message.created" ∨ b.hook = some "conversation.created" then
    match jsOrStr b.payload.content (b.payload.messages.bind MessagesObj.content) with
    | none => log
    | some content =>
      let cust := customerOf b.payload
      let log2 := ⟨displayNameOf cust, content, "Pending"⟩ :: log
      if 50 < log2.length then log2.dropLast else log2
  else log

/-- The `receivedMessages[0].signature_ok = ...` mutations performed by the
later middleware: rewrite the newest entry's status when the log is nonempty. -/
def markFirstEntry (log : List DashboardEntry) (status : String) :
    List DashboardEntry :=
  match log with
  | [] => []
  | e :: rest => { e with signature_ok := status } :: rest

/-- States of `receivedMessages` reachable from the initial empty array
by webhook deliveries and status updates. -/
inductive DashboardReachable : List DashboardEntry → Prop
  | init : DashboardReachable []
  | log (b : Body) {l : List DashboardEntry} :
      DashboardReachable l → DashboardReachable (logMessageForDashboard l b)
  | mark (status : String) {l : List DashboardEntry} :
      DashboardReachable l → DashboardReachable (markFirstEntry l status)

/-! ## Supporting lemmas about the conversation store -/

/-- Appending a message to every entry at key `k` shows up in lookups at `k`. -/
theorem convFind_store_update (m : ConvMap) (k : Option String) (msg : StoredMessage) :
    convFind (m.map fun p =>
        if p.1 = k then (p.1, { p.2 with messages := p.2.messages ++ [msg] }) else p) k =
      (convFind m k).map fun c => { c with messages := c.messages ++ [msg] } := by
  induction m with
  | nil => rfl
  | cons p m ih =>
    by_cases h : p.1 = k
    · simp [convFind, h]
    · simp [convFind, h, ih]

/-- Appending a message at key `k` does not change lookups at another key. -/
theorem convFind_store_update_ne (m : ConvMap) (k k' : Option String)
    (msg : StoredMessage) (h : k' ≠ k) :
    convFind (m.map fun p =>
        if p.1 = k then (p.1, { p.2 with messages := p.2.messages ++ [msg] }) else p) k' =
      convFind m k' := by
  induction m with
  | nil => rfl
  | cons p m ih =>
    by_cases hp : p.1 = k
    · have hne : k ≠ k' := fun hk => h hk.symm
      simp [convFind, hp, hne, ih]
    · simp [convFind, hp, ih]

/-- Lookup in an appended store consults the tail only on a miss. -/
theorem convFind_append (m1 m2 : ConvMap) (k : Option String) :
    convFind (m1 ++ m2) k =
      match convFind m1 k with
      | some c => some c
      | none => convFind m2 k := by
  induction m1 with
  | nil => simp [convFind]
  | cons p m ih =>
    by_cases h : p.1 = k <;> simp [convFind, h, ih]

/-- `storeMessage` at key `k`: the stored conversation is the old one (or a
fresh one carrying `cust`) with the message appended. -/
theorem storeMessage_find_self (m : ConvMap) (k : Option String)
    (cust : Option Customer) (msg : StoredMessage) :
    convFind (storeMessage m k cust msg) k =
      some (let c := (convFind m k).getD ⟨k, cust, []⟩
            { c with messages := c.messages ++ [msg] }) := by
  unfold storeMessage
  cases hf : convFind m k with
  | some c =>
    simp only [hf, Option.isSome_some, if_true]
    rw [convFind_store_update, hf]
    rfl
  | none =>
    simp only [hf, Option.isSome_none, Bool.false_eq_true, if_false]
    rw [convFind_store_update, convFind_append, hf]
    simp [convFind]

/-- `storeMessage` at key `k` leaves every other key's conversation alone. -/
theorem storeMessage_find_other (m : ConvMap) (k k' : Option String)
    (cust : Option Customer) (msg : StoredMessage) (h : k' ≠ k) :
    convFind (storeMessage m k cust msg) k' = convFind m k' := by
  unfold storeMessage
  cases hf : convFind m k with
  | some c =>
    simp only [hf, Option.isSome_some, if_true]
    exact convFind_store_update_ne m k k' msg h
  | none =>
    simp only [hf, Option.isSome_none, Bool.false_eq_true, if_false]
    rw [convFind_store_update_ne _ _ _ _ h, convFind_append]
    have hne : ¬k = k' := fun hk => h hk.symm
    cases hf' : convFind m k' <;> simp [convFind, hne]

/-! ## Claim C1 — IP allowlist runs first -/

/-- C1, counterexample: the claim quantifies over the raw first
comma-separated entry of X-Forwarded-For, but `ipAllowlist` trims it
before comparing.  A header whose first entry is the allowed address
followed by a space is not string-equal to the allowed IP, yet the
request is authorized (it reaches and passes the signature check). -/
theorem c1_counterexample :
    firstForwardedEntry
        ⟨some "34.89.215.92 ,203.0.113.9", "10.0.0.1", some "s", ⟨none, Payload.empty, none⟩⟩
        ≠ allowedIp
    ∧ authenticate "s"
        ⟨some "34.89.215.92 ,203.0.113.9", "10.0.0.1", some "s", ⟨none, Payload.empty, none⟩⟩
        = .authorized := by
  constructor
  · decide
  · decide

/-- C1, amended: for every webhook request whose first comma-separated
entry of X-Forwarded-For (falling back to the raw peer address), AFTER
trimming surrounding whitespace, differs from the configured allowed IP,
the authenticator answers the IP rejection (HTTP 403) regardless of the
signature header, and the conversation store is untouched. -/
theorem c1_ip_mismatch_rejected_before_signature (secret : String) (req : Request)
    (m : ConvMap) (h : firstIp req ≠ allowedIp) :
    authenticate secret req = .rejectedIp
    ∧ webhookRequestStep secret m req = (.forbidden403, m, []) := by
  have hpass : ipAllowlistPasses req = false := by
    simp [ipAllowlistPasses, h]
  constructor
  · simp [authenticate, hpass]
  · simp [webhookRequestStep, authenticate, hpass]

/-- C1, witness: a concrete request from a disallowed address is rejected
by the IP check whatever its (here valid) signature says. -/
theorem c1_witness :
    authenticate "s" ⟨some "203.0.113.7", "10.0.0.1", some "s", ⟨none, Payload.empty, none⟩⟩
      = .rejectedIp
    ∧ webhookRequestStep "s" []
        ⟨some "203.0.113.7", "10.0.0.1", some "s", ⟨none, Payload.empty, none⟩⟩
      = (.forbidden403, [], []) :=
  c1_ip_mismatch_rejected_before_signature "s"
    ⟨some "203.0.113.7", "10.0.0.1", some "s", ⟨none, Payload.empty, none⟩⟩ []
    (by decide)

/-! ## Claim C2 — the HMAC signature verifier -/

/-- C2, counterexample: the verifier reads `req.body.channel?.uuid`, not
`payload.channel.uuid`.  A body whose payload has no `channel.uuid` at all
but whose top-level `channel.uuid` is "abc", sent with the matching
HMAC-SHA256-base64 header under secret "secret", is ACCEPTED, where the
claim demands a 400 rejection. -/
theorem c2_counterexample :
    payloadChannelUuid
        ⟨some "message.created", Payload.empty, some ⟨some "abc"⟩⟩ = none
    ∧ verifyConnexeaseSignature "secret"
        ⟨none, "34.89.215.92",
         some "mUba1OAOkT/Ivo5dP34RCkqegy+D+wnDRShdeGONig4=",
         ⟨some "message.created", Payload.empty, some ⟨some "abc"⟩⟩⟩
        = .verified := by
  constructor
  · decide
  · decide

/-- C2, amended: a request with a missing (JS-falsy) signature header is
rejected with 403; one whose parsed body lacks a truthy TOP-LEVEL
`channel.uuid` (the field the code reads, `req.body.channel?.uuid`) is
rejected with 400; otherwise the verifier accepts exactly when the header
equals the base64 HMAC-SHA256 of the UTF-8 bytes of that uuid under the
configured secret, and any other header value — in particular any one-bit
mutation of a valid signature — is rejected. -/
theorem c2_hmac_verifier_characterization (secret : String) (req : Request) :
    (jsTruthy req.signatureHeader = none →
      verifyConnexeaseSignature secret req = .forbiddenMissing)
    ∧ (∀ s, jsTruthy req.signatureHeader = some s →
        jsTruthy (req.body.channel.bind Channel.uuid) = none →
        verifyConnexeaseSignature secret req = .badRequestPayload)
    ∧ (∀ s u, jsTruthy req.signatureHeader = some s →
        jsTruthy (req.body.channel.bind Channel.uuid) = some u →
        (verifyConnexeaseSignature secret req = .verified ↔
          s = hmacSha256Base64 secret u))
    ∧ (∀ u s2, jsTruthy (req.body.channel.bind Channel.uuid) = some u →
        s2 ≠ hmacSha256Base64 secret u →
        verifyConnexeaseSignature secret { req with signatureHeader := some s2 }
          ≠ .verified) := by
  refine ⟨?_, ?_, ?_, ?_⟩
  · intro h; simp [verifyConnexeaseSignature, h]
  · intro s hs hu; simp [verifyConnexeaseSignature, hs, hu]
  · intro s u hs hu
    by_cases he : s = hmacSha256Base64 secret u <;>
      simp [verifyConnexeaseSignature, hs, hu, he]
  · intro u s2 hu hne
    by_cases h2 : s2 = ""
    · simp [verifyConnexeaseSignature, jsTruthy, h2]
    · have hj : jsTruthy (some s2) = some s2 := by simp [jsTruthy, h2]
      simp [verifyConnexeaseSignature, hj, hu, hne]

/-- C2, witness: under the amended characterization, a concrete request
with no signature header is rejected as missing. -/
theorem c2_witness :
    verifyConnexeaseSignature "secret"
        ⟨none, "34.89.215.92", none, ⟨none, Payload.empty, some ⟨some "abc"⟩⟩⟩
      = .forbiddenMissing :=
  (c2_hmac_verifier_characterization "secret"
      ⟨none, "34.89.215.92", none, ⟨none, Payload.empty, some ⟨some "abc"⟩⟩⟩).1
    (by decide)

/-! ## Claim C3 — token cache reuse and TTL -/

/-- C3: the token cache returns the cached value with no network request
exactly when the code's guard holds — a cached (truthy, i.e. nonempty)
token exists and `now` is strictly before the stored expiry; a successful
fetch stamps the expiry `now + 23.5h`; hence after a successful fetch at
time T a call at T+23h is served from cache and a call at T+24h refetches. -/
theorem c3_token_cache_reuse_and_ttl :
    (∀ st now fetch, (getConnexeaseToken st now fetch).madeRequest = false ↔
        tokenCacheHit st now = true)
    ∧ (∀ st now fetch, tokenCacheHit st now = true →
        getConnexeaseToken st now fetch = ⟨st.connexeaseToken, st, false⟩)
    ∧ (∀ st now tok, tokenCacheHit st now = false →
        getConnexeaseToken st now (.success tok) =
          ⟨some tok, ⟨some tok, some (now + tokenTtlMs)⟩, true⟩)
    ∧ (∀ T tok fetch, tok ≠ "" →
        getConnexeaseToken ⟨some tok, some (T + tokenTtlMs)⟩ (T + 82800000) fetch =
          ⟨some tok, ⟨some tok, some (T + tokenTtlMs)⟩, false⟩)
    ∧ (∀ T tok fetch,
        (getConnexeaseToken ⟨some tok, some (T + tokenTtlMs)⟩ (T + 86400000) fetch).madeRequest
          = true) := by
  refine ⟨?_, ?_, ?_, ?_, ?_⟩
  · intro st now fetch
    by_cases h : tokenCacheHit st now <;> cases fetch <;>
      simp [getConnexeaseToken, h]
  · intro st now fetch h
    simp [getConnexeaseToken, h]
  · intro st now tok h
    simp [getConnexeaseToken, h]
  · intro T tok fetch htok
    have hhit : tokenCacheHit ⟨some tok, some (T + tokenTtlMs)⟩ (T + 82800000) = true := by
      simp [tokenCacheHit, htok, tokenTtlMs]
    simp [getConnexeaseToken, hhit]
  · intro T tok fetch
    have hhit : tokenCacheHit ⟨some tok, some (T + tokenTtlMs)⟩ (T + 86400000) = false := by
      simp [tokenCacheHit, tokenTtlMs]
    cases fetch <;> simp [getConnexeaseToken, hhit]

/-- C3, witness: a token fetched at time 0 is served from cache at 23h
(82,800,000 ms) and the cache state is untouched. -/
theorem c3_witness :
    getConnexeaseToken ⟨some "tok", some (0 + tokenTtlMs)⟩ (0 + 82800000) .failure =
      ⟨some "tok", ⟨some "tok", some (0 + tokenTtlMs)⟩, false⟩ :=
  c3_token_cache_reuse_and_ttl.2.2.2.1 0 "tok" .failure (by decide)

/-! ## Claim C4 — dropping events with blank content -/

/-- C4, counterexample: the store-and-broadcast handler of `index.js`
never trims.  A `message.created` event whose content is the single space
" " (which trims to empty, so the claim demands a silent drop) is stored
in the conversation map AND broadcast. -/
theorem c4_counterexample :
    jsTrim " " = ""
    ∧ webhookStoreStep []
        ⟨some "message.created",
         { Payload.empty with customer := some ⟨some "Ada", none⟩,
                              content := some " ",
                              conversation_uuid := some "c1" },
         none⟩ =
      ([(some "c1", ⟨some "c1", some ⟨some "Ada", none⟩, [⟨"customer", some " "⟩]⟩)],
       [⟨"newMessage", some "c1", ⟨"customer", some " "⟩, some ⟨some "Ada", none⟩⟩]) := by
  constructor
  · decide
  · decide

/-- C4, amended: the store-and-broadcast handler drops an event (stores
nothing, broadcasts nothing) exactly when it does not normalize or its
extracted content is JS-falsy (absent or the empty string) — content is
NOT trimmed, so whitespace-only content is stored and broadcast; only the
auto-reply gate of `src/unnamed/part_001` additionally skips events whose
content is blank after trimming. -/
theorem c4_blank_content_drop_characterization :
    (∀ (m : ConvMap) (b : Body), normalizeWebhook b = none →
        webhookStoreStep m b = (m, []))
    ∧ (∀ (m : ConvMap) (b : Body) (cid : Option String) (msg : StoredMessage),
        normalizeWebhook b = some (cid, msg) → jsTruthy msg.content = none →
        webhookStoreStep m b = (m, []))
    ∧ (∀ (m : ConvMap) (b : Body) (cid : Option String) (msg : StoredMessage)
        (c : String),
        normalizeWebhook b = some (cid, msg) → jsTruthy msg.content = some c →
        (webhookStoreStep m b).2 ≠ [])
    ∧ (∀ b : Body,
        (∀ c, jsTruthy b.payload.content = some c → jsTrim c = "") →
        (∀ c, jsTruthy (b.payload.messages.bind MessagesObj.content) = some c →
          jsTrim c = "") →
        repliesToEvent b = false) := by
  refine ⟨?_, ?_, ?_, ?_⟩
  · intro m b hn; simp [webhookStoreStep, hn]
  · intro m b cid msg hn hc; simp [webhookStoreStep, hn, hc]
  · intro m b cid msg c hn hc; simp [webhookStoreStep, hn, hc]
  · intro b h1 h2
    unfold repliesToEvent
    by_cases hm : b.hook = some "message.created"
    · simp only [hm, if_true]
      cases hcu : b.payload.customer with
      | none => rfl
      | some cu =>
        cases ha : b.payload.agent with
        | some a => rfl
        | none =>
          cases hj : jsTruthy b.payload.content with
          | none => rfl
          | some c => simp [h1 c hj]
    · simp only [hm, if_false]
      by_cases hc2 : b.hook = some "conversation.created"
      · simp only [hc2, if_true]
        cases hj : jsTruthy (b.payload.messages.bind MessagesObj.content) with
        | none => rfl
        | some c => simp [h2 c hj]
      · simp [hc2]

/-- C4, witness: an event whose content is absent is dropped — stored
nowhere, broadcast to nobody. -/
theorem c4_witness :
    webhookStoreStep []
        ⟨some "message.created",
         { Payload.empty with customer := some ⟨some "Ada", none⟩,
                              conversation_uuid := some "c1" },
         none⟩ = ([], []) :=
  c4_blank_content_drop_characterization.2.1 []
    ⟨some "message.created",
     { Payload.empty with customer := some ⟨some "Ada", none⟩,
                          conversation_uuid := some "c1" },
     none⟩
    (some "c1") ⟨"customer", none⟩ (by decide) (by decide)

/-! ## Claim C5 — normalizer examples -/

/-- C5, counterexample: the handler reads `payload.conversation_uuid`, not
`payload.conversationId`.  On the claim's event — hook message.created,
customer Ada, content Hello, conversationId c1 — the extracted
conversation id is undefined (`none`), not "c1". -/
theorem c5_counterexample :
    normalizeWebhook
        ⟨some "message.created",
         { Payload.empty with customer := some ⟨some "Ada", none⟩,
                              content := some "Hello",
                              conversationId := some "c1" },
         none⟩ =
      some (none, ⟨"customer", some "Hello"⟩) := by
  decide

/-- C5, amended: with the conversation id under the field the code reads,
`payload.conversation_uuid`, the event — hook message.created, customer
Ada, content Hello — normalizes to conversation id "c1", sender customer,
content "Hello"; the same event with `customer` absent yields no message. -/
theorem c5_normalizer_examples :
    normalizeWebhook
        ⟨some "message.created",
         { Payload.empty with customer := some ⟨some "Ada", none⟩,
                              content := some "Hello",
                              conversation_uuid := some "c1" },
         none⟩ =
      some (some "c1", ⟨"customer", some "Hello"⟩)
    ∧ normalizeWebhook
        ⟨some "message.created",
         { Payload.empty with content := some "Hello",
                              conversation_uuid := some "c1" },
         none⟩ = none := by
  constructor
  · decide
  · decide

/-! ## Claim C6 — the suggestion producer's failure behavior -/

/-- C6, counterexample: the lazy `fs.readFile` of the knowledge base sits
OUTSIDE the try/catch in `getAIResponse`, so with an empty cached
knowledge base and a failing read the function propagates the exception
instead of returning a degraded fallback string. -/
theorem c6_counterexample :
    getAIResponse fallbackRev1 "" (.error ()) (.ok "hello") = .thrown := by
  decide

/-- C6, amended: on any generative-provider failure the suggestion
producer returns the fixed fallback string and never propagates the
failure — PROVIDED the knowledge base is already loaded or its read
succeeds; when the cached knowledge base is empty and the file read
fails, the exception propagates to the caller. -/
theorem c6_provider_failure_soft_degrade
    (fallback kb : String) (kbRead : Except Unit String)
    (provider : Except Unit String) :
    (∀ t, (kb = "" → kbRead = .ok t) →
      getAIResponse fallback kb kbRead provider ≠ .thrown)
    ∧ (∀ t, (kb = "" → kbRead = .ok t) → provider = .error () →
      ∃ kb2, getAIResponse fallback kb kbRead provider = .reply fallback kb2)
    ∧ (kb = "" → kbRead = .error () →
      getAIResponse fallback kb kbRead provider = .thrown) := by
  refine ⟨?_, ?_, ?_⟩
  · intro t ht
    by_cases hk : kb = ""
    · cases provider <;> simp [getAIResponse, hk, ht hk]
    · cases provider <;> simp [getAIResponse, hk]
  · intro t ht hp
    by_cases hk : kb = ""
    · exact ⟨t, by simp [getAIResponse, hk, ht hk, hp]⟩
    · exact ⟨kb, by simp [getAIResponse, hk, hp]⟩
  · intro hk hr
    simp [getAIResponse, hk, hr]

/-- C6, witness: with a loaded knowledge base and a failing provider, the
producer yields the revision-1 apology string rather than an exception. -/
theorem c6_witness :
    ∃ kb2, getAIResponse fallbackRev1 "kb text" (.ok "kb text") (.error ()) =
      .reply fallbackRev1 kb2 :=
  (c6_provider_failure_soft_degrade fallbackRev1 "kb text" (.ok "kb text")
      (.error ())).2.1 "kb text" (fun h => by simp [h]) rfl

/-! ## Claim C7 — failed token refresh preserves the cache -/

/-- C7: when the refresh request to the credential endpoint fails, the
cache state after the call is identical to the state before it, and
whenever a refresh was actually attempted the call returns the failure
value (null). -/
theorem c7_failed_refresh_preserves_state (st : TokenCacheState) (now : Nat) :
    (getConnexeaseToken st now .failure).state = st
    ∧ ((getConnexeaseToken st now .failure).madeRequest = true →
        (getConnexeaseToken st now .failure).result = none) := by
  by_cases h : tokenCacheHit st now <;> simp [getConnexeaseToken, h]

/-- C7, witness: a failed refresh on an empty cache leaves it empty and
returns null. -/
theorem c7_witness :
    (getConnexeaseToken ⟨none, none⟩ 0 .failure).state = (⟨none, none⟩ : TokenCacheState)
    ∧ (getConnexeaseToken ⟨none, none⟩ 0 .failure).result = none :=
  ⟨(c7_failed_refresh_preserves_state ⟨none, none⟩ 0).1,
   (c7_failed_refresh_preserves_state ⟨none, none⟩ 0).2 (by decide)⟩

/-! ## Claim C8 — replaying a webhook appends twice (no deduplication) -/

/-- C8: delivering the identical webhook body twice (one that normalizes
to a stored message) appends two copies of the message, in arrival order,
to the same conversation — there is no deduplication. -/
theorem c8_replay_appends_twice (m : ConvMap) (b : Body) (cid : Option String)
    (msg : StoredMessage) (c : String)
    (hn : normalizeWebhook b = some (cid, msg))
    (hc : jsTruthy msg.content = some c) :
    (convFind (webhookStoreStep (webhookStoreStep m b).1 b).1 cid).map
        Conversation.messages =
      some ((((convFind m cid).map Conversation.messages).getD []) ++ [msg, msg]) := by
  simp only [webhookStoreStep, hn, hc]
  rw [storeMessage_find_self, storeMessage_find_self]
  cases hf : convFind m cid <;> simp [hf]

/-- C8, witness: replaying a concrete customer message stores it twice in
conversation "c1". -/
theorem c8_witness :
    (convFind
        (webhookStoreStep
          (webhookStoreStep []
            ⟨some "message.created",
             { Payload.empty with customer := some ⟨some "Ada", none⟩,
                                  content := some "Hello",
                                  conversation_uuid := some "c1" },
             none⟩).1
          ⟨some "message.created",
           { Payload.empty with customer := some ⟨some "Ada", none⟩,
                                content := some "Hello",
                                conversation_uuid := some "c1" },
           none⟩).1
        (some "c1")).map Conversation.messages =
      some [⟨"customer", some "Hello"⟩, ⟨"customer", some "Hello"⟩] :=
  c8_replay_appends_twice []
    ⟨some "message.created",
     { Payload.empty with customer := some ⟨some "Ada", none⟩,
                          content := some "Hello",
                          conversation_uuid := some "c1" },
     none⟩
    (some "c1") ⟨"customer", some "Hello"⟩ "Hello" (by decide) (by decide)

/-! ## Claim C9 — the customer field is assigned only at creation -/

/-- C9: a conversation's customer is taken from the creating event's
`payload.customer || payload.messages?.customer`; every later stored
event for the same conversation id appends to its message sequence and
leaves its id and customer fields unchanged. -/
theorem c9_customer_assigned_only_at_creation :
    (∀ (m : ConvMap) (b : Body) (cid : Option String) (msg : StoredMessage)
        (c : String) (conv : Conversation),
        normalizeWebhook b = some (cid, msg) → jsTruthy msg.content = some c →
        convFind m cid = some conv →
        convFind (webhookStoreStep m b).1 cid =
          some ⟨conv.id, conv.customer, conv.messages ++ [msg]⟩)
    ∧ (∀ (m : ConvMap) (b : Body) (cid : Option String) (msg : StoredMessage)
        (c : String),
        normalizeWebhook b = some (cid, msg) → jsTruthy msg.content = some c →
        convFind m cid = none →
        convFind (webhookStoreStep m b).1 cid =
          some ⟨cid, customerOf b.payload, [msg]⟩) := by
  constructor
  · intro m b cid msg c conv hn hc hf
    simp only [webhookStoreStep, hn, hc]
    rw [storeMessage_find_self, hf]
    simp
  · intro m b cid msg c hn hc hf
    simp only [webhookStoreStep, hn, hc]
    rw [storeMessage_find_self, hf]
    simp

/-- C9, witness: the first stored event for conversation "c1" creates it
with the event's customer Ada and one message. -/
theorem c9_witness :
    convFind
        (webhookStoreStep []
          ⟨some "message.created",
           { Payload.empty with customer := some ⟨some "Ada", none⟩,
                                content := some "Hi",
                                conversation_uuid := some "c1" },
           none⟩).1
        (some "c1") =
      some ⟨some "c1", some ⟨some "Ada", none⟩, [⟨"customer", some "Hi"⟩]⟩ := by
  have h := c9_customer_assigned_only_at_creation.2 []
    ⟨some "message.created",
     { Payload.empty with customer := some ⟨some "Ada", none⟩,
                          content := some "Hi",
                          conversation_uuid := some "c1" },
     none⟩
    (some "c1") ⟨"customer", some "Hi"⟩ "Hi" (by decide) (by decide) (by decide)
  simpa using h

/-! ## Claim C10 — the dashboard log never exceeds 50 entries -/

/-- One logging step keeps the dashboard log within the 50-entry bound. -/
theorem logMessageForDashboard_length_le (l : List DashboardEntry) (b : Body)
    (h : l.length ≤ 50) : (logMessageForDashboard l b).length ≤ 50 := by
  by_cases hb : b.hook = some "message.created" ∨ b.hook = some "conversation.created"
  · cases hj : jsOrStr b.payload.content (b.payload.messages.bind MessagesObj.content) with
    | none => simpa [logMessageForDashboard, hb, hj] using h
    | some content =>
      simp only [logMessageForDashboard, hb, if_true, hj]
      split
      · simp only [List.length_dropLast, List.length_cons]
        omega
      · rename_i hlen
        simp only [List.length_cons]
        simp only [List.length_cons] at hlen
        omega
  · simpa [logMessageForDashboard, hb] using h

/-- Rewriting the newest entry's signature status preserves the length. -/
theorem markFirstEntry_length (l : List DashboardEntry) (s : String) :
    (markFirstEntry l s).length = l.length := by
  cases l <;> rfl

/-- C10: every reachable state of the diagnostic message log holds at
most 50 entries, and each logging step either leaves the log unchanged or
prepends exactly one entry (newest first), dropping the oldest entry when
the length would exceed 50. -/
theorem c10_dashboard_log_bounded :
    (∀ l, DashboardReachable l → l.length ≤ 50)
    ∧ (∀ (l : List DashboardEntry) (b : Body),
        logMessageForDashboard l b = l ∨
        ∃ e, logMessageForDashboard l b =
          if 50 < l.length + 1 then (e :: l).dropLast else e :: l) := by
  constructor
  · intro l h
    induction h with
    | init => simp
    | log b _ ih => exact logMessageForDashboard_length_le _ b ih
    | mark s _ ih => rw [markFirstEntry_length]; exact ih
  · intro l b
    by_cases hb : b.hook = some "message.created" ∨ b.hook = some "conversation.created"
    · cases hj : jsOrStr b.payload.content (b.payload.messages.bind MessagesObj.content) with
      | none => left; simp [logMessageForDashboard, hb, hj]
      | some content =>
        right
        refine ⟨⟨displayNameOf (customerOf b.payload), content, "Pending"⟩, ?_⟩
        simp [logMessageForDashboard, hb, hj]
    · left; simp [logMessageForDashboard, hb]

/-- C10, witness: logging one concrete event from the empty log stays
within the bound. -/
theorem c10_witness :
    (logMessageForDashboard []
        ⟨some "message.created", { Payload.empty with content := some "hi" }, none⟩).length
      ≤ 50 :=
  c10_dashboard_log_bounded.1 _
    (DashboardReachable.log
      ⟨some "message.created", { Payload.empty with content := some "hi" }, none⟩
      DashboardReachable.init)

end OmniBot
